import Mathlib

/-!
Verification of the workflow orchestration engine of the
LangGraph-Lead-Generation repository.

The development shallowly embeds the orchestrator found in
`src/langgraph_builder.py` (class `LangGraphWorkflowBuilder`), the schema
validation in `src/utils/validators.py` (`WORKFLOW_SCHEMA` /
`validate_workflow`) and the configuration loading in
`src/utils/config_loader.py` (`ConfigLoader._load_env` / `is_dry_run`).

Python's JSON-like runtime values are modelled by the inductive type
`Value`; Python dictionaries by insertion-ordered association lists
(`List (String × Value)`) with overwrite-in-place update (`setKey`), which
matches CPython dict semantics for the operations the source uses.
The process environment is a function `String → Option String`
(`os.getenv`).  Calls to `logger.warning` inside the reference resolver are
modelled by returning the emitted message list alongside the value.
-/

namespace LeadGen

/-- JSON-like runtime values (Python's `None`/`bool`/`int`/`str`/`list`/`dict`
as produced by `json.load` and passed between agents). -/
inductive Value where
  | null : Value
  | bool (b : Bool) : Value
  | int (n : Int) : Value
  | str (s : String) : Value
  | list (xs : List Value) : Value
  | obj (kvs : List (String × Value)) : Value
deriving Repr, Inhabited

/-- Python dictionary lookup `d.get(key)` on an association list (first
matching key; keys are unique in dicts built by `json.load`). -/
def getKey? : List (String × Value) → String → Option Value
  | [], _ => none
  | (k, v) :: rest, key => if k == key then some v else getKey? rest key

/-- Python `key in d`. -/
def hasKey (kvs : List (String × Value)) (key : String) : Bool :=
  (getKey? kvs key).isSome

/-- Python dictionary assignment `d[key] = v`: overwrite in place when the
key exists, append otherwise (CPython insertion-order semantics). -/
def setKey : List (String × Value) → String → Value → List (String × Value)
  | [], key, v => [(key, v)]
  | (k, w) :: rest, key, v =>
      if k == key then (k, v) :: rest else (k, w) :: setKey rest key v

/-- Python truthiness (`if result:`) of a JSON-like value. -/
def Value.truthy : Value → Bool
  | .null => false
  | .bool b => b
  | .int n => n != 0
  | .str s => s != ""
  | .list xs => !xs.isEmpty
  | .obj kvs => !kvs.isEmpty

/-- The fields of a JSON object, `[]` for non-objects. -/
def objFields : Value → List (String × Value)
  | .obj kvs => kvs
  | _ => []

/-! ## Python string primitives

Python strings are sequences of code points, which `String.data : List Char`
models exactly; the primitives below are structural-recursive translations
of the Python string operations the orchestrator uses (the core `String`
functions are not used because several are defined by well-founded
recursion and therefore do not evaluate inside the kernel). -/

/-- Python `s.split(sep)` for a one-character separator, on code points:
splits at every occurrence, keeping empty parts (`"".split('.') == ['']`). -/
def pySplitChars (sep : Char) : List Char → List (List Char)
  | [] => [[]]
  | c :: rest =>
    match pySplitChars sep rest with
    | [] => [[]]
    | g :: gs => if c == sep then [] :: g :: gs else (c :: g) :: gs

/-- Python `s.split('.')`. -/
def pySplitDot (s : String) : List String :=
  (pySplitChars '.' s.data).map String.mk

/-- Python `s.startswith(p)`. -/
def pyStartsWith (s p : String) : Bool :=
  p.data.isPrefixOf s.data

/-- Python `s.endswith(p)`. -/
def pyEndsWith (s p : String) : Bool :=
  p.data.isSuffixOf s.data

/-- Python `s.strip()` (whitespace on both ends; the source only ever strips
ordinary ASCII whitespace around placeholder references). -/
def pyStrip (s : String) : String :=
  String.mk
    (((s.data.dropWhile Char.isWhitespace).reverse.dropWhile
        Char.isWhitespace).reverse)

/-- Python `s.lower()` (the compared values are ASCII `true` / `false`). -/
def pyLower (s : String) : String :=
  String.mk (s.data.map Char.toLower)

/-! ## Reference resolver (`LangGraphWorkflowBuilder._prepare_agent_inputs`) -/

/-- `value[2:-2].strip()` — the text between the `{{` `}}` delimiters
(`langgraph_builder.py` line 168). -/
def placeholderBody (s : String) : String :=
  pyStrip (String.mk ((s.data.drop 2).dropLast.dropLast))

/-- Lines 178–184: coerce the string values `"true"` / `"false"`
(case-insensitively) of an environment variable to booleans, any other
string stays a raw string. -/
def coerceEnvString (ev : String) : Value :=
  if pyLower ev == "true" then .bool true
  else if pyLower ev == "false" then .bool false
  else .str ev

/-- Lines 198–205: walk the remaining dotted path into the workflow `config`
mapping; `none` models the `data = None; break` abort on the first segment
that is not a key of a dict. -/
def walkConfigPath : Value → List String → Option Value
  | data, [] => some data
  | data, part :: rest =>
    match data with
    | .obj kvs =>
      match getKey? kvs part with
      | some v => walkConfigPath v rest
      | none => none
    | _ => none

/-- Lines 213–225: walk the remaining dotted path into a stage's stored
result.  The segment literal `"output"` descends into the `"data"` key when
the current value is a dict containing one, and is otherwise skipped
(`continue` in both cases); every other segment is a plain dict lookup with
`none` modelling the `data = None; break` abort. -/
def walkStatePath : Value → List String → Option Value
  | data, [] => some data
  | data, part :: rest =>
    if part == "output" then
      match data with
      | .obj kvs =>
        match getKey? kvs "data" with
        | some d => walkStatePath d rest
        | none => walkStatePath data rest
      | _ => walkStatePath data rest
    else
      match data with
      | .obj kvs =>
        match getKey? kvs part with
        | some v => walkStatePath v rest
        | none => none
      | _ => none

/-- `self.workflow_config.get('config', {})` (line 197). -/
def configOf (wc : Value) : Value :=
  (getKey? (objFields wc) "config").getD (.obj [])

/-- Resolution of one binding value (the body of the `for key, value in
inputs.items()` loop, lines 164–240).  Returns the resolved value together
with the list of `logger.warning` diagnostics emitted.  Non-string values
and strings that are not wrapped in `{{ }}` pass through unchanged
(lines 238–240).  The `len(parts) == 1` branch looks up the whole stripped
reference in the process environment (lines 174–189); the first token
`config` walks the workflow config (lines 195–207); any other first token
is treated as a stage id looked up in the workflow state (lines 209–230). -/
def resolveValue (wc : Value) (state : List (String × Value))
    (env : String → Option String) (v : Value) : Value × List String :=
  match v with
  | .str s =>
    if pyStartsWith s "\x7b\x7b" && pyEndsWith s "\x7d\x7d" then
      let reference := placeholderBody s
      match pySplitDot reference with
      | [] => (.str s, [])
      | [_] =>
        match env reference with
        | some ev => (coerceEnvString ev, [])
        | none => (.null, ["Could not resolve reference: " ++ reference])
      | first :: restParts =>
        if first == "config" then
          match walkConfigPath (configOf wc) restParts with
          | some d => (d, [])
          | none =>
              (.null, ["Could not resolve config reference: " ++ reference])
        else
          match getKey? state first with
          | some data =>
            match walkStatePath data restParts with
            | some d => (d, [])
            | none => (.null, ["Could not resolve reference: " ++ reference])
          | none =>
              (.null,
               ["Step \x27" ++ first ++ "\x27 output not found in state"])
    else (.str s, [])
  | other => (other, [])

/-- `_prepare_agent_inputs` (lines 151–246): resolve every binding of the
step into the `resolved_inputs` dict, then inject the global dry-run flag
under the key `dry_run` when that key was not supplied (lines 242–244).
`dryRunVal` is the value `self.config_loader.is_dry_run()` returns. -/
def prepareAgentInputs (wc : Value) (state : List (String × Value))
    (env : String → Option String) (dryRunVal : Value)
    (inputs : List (String × Value)) : List (String × Value) × List String :=
  let resolved := inputs.foldl
    (fun acc kv =>
      let r := resolveValue wc state env kv.2
      (setKey acc.1 kv.1 r.1, acc.2 ++ r.2))
    ([], [])
  if hasKey resolved.1 "dry_run" then resolved
  else (setKey resolved.1 "dry_run" dryRunVal, resolved.2)

/-! ## Orchestrator (`LangGraphWorkflowBuilder`)

A stage executor (`BaseAgent.execute`) is an opaque external collaborator:
given its resolved inputs it either returns a value or raises an exception
carrying a message (`str(e)`). -/

/-- Outcome of one call to an agent's `execute`. -/
inductive ExecOutcome where
  | ok (v : Value) : ExecOutcome
  | raises (msg : String) : ExecOutcome

/-- `self.workflow_config.get('steps', [])` (lines 74 and 109); after
validation the value at `steps` is always a list. -/
def workflowStepsOf (wc : Value) : List Value :=
  match getKey? (objFields wc) "steps" with
  | some (.list xs) => xs
  | _ => []

/-- `step['id']` — present and a string for every validated step. -/
def stepId (st : Value) : String :=
  match getKey? (objFields st) "id" with
  | some (.str s) => s
  | _ => ""

/-- `step['agent']` — present and a string for every validated step. -/
def stepAgent (st : Value) : String :=
  match getKey? (objFields st) "agent" with
  | some (.str s) => s
  | _ => ""

/-- `step.get('inputs', {})` (line 161). -/
def stepInputs (st : Value) : List (String × Value) :=
  match getKey? (objFields st) "inputs" with
  | some (.obj kvs) => kvs
  | _ => []

/-- The observable history of one `execute_workflow` run: the sequence of
agent invocations (agent id together with the resolved inputs handed to
`execute`) and the shared `self.state` dictionary. -/
structure Trace where
  calls : List (String × List (String × Value))
  state : List (String × Value)

/-- The body of the `for i, step in enumerate(steps, 1)` loop
(lines 111–140): prepare the inputs, invoke the agent and record its result
in state — a truthy result is stored as is, a falsy result as `{}`
(line 126), and a raised exception as
`{"error": str(e), "status": "failed"}` (lines 134–139);
in every case execution proceeds to the next step. -/
def runStep (wc : Value) (env : String → Option String) (dryRunVal : Value)
    (agents : String → List (String × Value) → ExecOutcome)
    (acc : Trace) (step : Value) : Trace :=
  let agentId := stepId step
  let inputs :=
    (prepareAgentInputs wc acc.state env dryRunVal (stepInputs step)).1
  let stored :=
    match agents agentId inputs with
    | .ok result => if result.truthy then result else Value.obj []
    | .raises msg =>
        Value.obj [("error", .str msg), ("status", .str "failed")]
  { calls := acc.calls ++ [(agentId, inputs)],
    state := setKey acc.state agentId stored }

/-- The whole stage loop of `execute_workflow`, starting from the empty
state created in `__init__` (line 59). -/
def executeStepList (wc : Value) (env : String → Option String)
    (dryRunVal : Value)
    (agents : String → List (String × Value) → ExecOutcome)
    (steps : List Value) : Trace :=
  steps.foldl (runStep wc env dryRunVal agents) { calls := [], state := [] }

/-- The snapshot file name produced by `_save_results` (lines 250–255). -/
def saveResultsPath (timestamp : String) : String :=
  "output/workflow_results_" ++ timestamp ++ ".json"

/-- Result of a whole `execute_workflow` call: the returned state (or the
propagated persistence error), the agent invocation history, and the
snapshot write attempts (path together with the serialized state). -/
structure RunOutcome where
  result : Except String (List (String × Value))
  calls : List (String × List (String × Value))
  writes : List (String × List (String × Value))

/-- `execute_workflow` (lines 98–149): run every step of the configuration
in declared order, then `_save_results` writes one snapshot of the full
state to a timestamped file; `write` models the file system, its `Except`
failure models an `OSError` from `open`/`json.dump`, which is not caught
and therefore propagates to the caller. -/
def executeWorkflow (wc : Value) (env : String → Option String)
    (dryRunVal : Value)
    (agents : String → List (String × Value) → ExecOutcome)
    (timestamp : String)
    (write : String → List (String × Value) → Except String Unit) :
    RunOutcome :=
  let t := executeStepList wc env dryRunVal agents (workflowStepsOf wc)
  let path := saveResultsPath timestamp
  match write path t.state with
  | .ok _ => { result := .ok t.state, calls := t.calls, writes := [(path, t.state)] }
  | .error e =>
      { result := .error e, calls := t.calls, writes := [(path, t.state)] }

/-! ## Schema validation (`src/utils/validators.py`, `WORKFLOW_SCHEMA` and
`validate_workflow`) and `build_workflow` -/

/-- JSON-schema `{"type": "string"}`. -/
def isStrV : Value → Bool
  | .str _ => true
  | _ => false

/-- JSON-schema `{"type": "object"}`. -/
def isObjV : Value → Bool
  | .obj _ => true
  | _ => false

/-- JSON-schema `{"type": "array"}`. -/
def isListV : Value → Bool
  | .list _ => true
  | _ => false

/-- A `properties` entry constrains the value only when the key is
present (JSON-schema semantics). -/
def propTypeOk (kvs : List (String × Value)) (key : String)
    (check : Value → Bool) : Bool :=
  match getKey? kvs key with
  | some v => check v
  | none => true

/-- The per-step item schema of `WORKFLOW_SCHEMA` (validators.py lines
25–37): an object with required `id`, `agent`, `instructions` and typed
optional properties. -/
def validStepSchema (v : Value) : Bool :=
  match v with
  | .obj kvs =>
    hasKey kvs "id" && hasKey kvs "agent" && hasKey kvs "instructions"
      && propTypeOk kvs "id" isStrV
      && propTypeOk kvs "agent" isStrV
      && propTypeOk kvs "description" isStrV
      && propTypeOk kvs "instructions" isStrV
      && propTypeOk kvs "inputs" isObjV
      && propTypeOk kvs "tools" isListV
      && propTypeOk kvs "output_schema" isObjV
  | _ => false

/-- `validate_workflow` (validators.py lines 43–60): `jsonschema.validate`
against `WORKFLOW_SCHEMA` — an object with required `workflow_name` and
`steps`, typed optional top-level properties, and every step item valid. -/
def validateWorkflow (v : Value) : Bool :=
  match v with
  | .obj kvs =>
    hasKey kvs "workflow_name" && hasKey kvs "steps"
      && propTypeOk kvs "workflow_name" isStrV
      && propTypeOk kvs "description" isStrV
      && propTypeOk kvs "version" isStrV
      && (match getKey? kvs "steps" with
          | some (.list xs) => xs.all validStepSchema
          | some _ => false
          | none => true)
  | _ => false

/-- `LangGraphWorkflowBuilder.AGENT_REGISTRY` (lines 39–47): the stage
types that have a constructor. -/
def AGENT_REGISTRY : List String :=
  ["ProspectSearchAgent", "DataEnrichmentAgent", "ScoringAgent",
   "OutreachContentAgent", "OutreachExecutorAgent", "ResponseTrackerAgent",
   "FeedbackTrainerAgent"]

/-- The agent-construction loop of `build_workflow` (lines 77–93): walks
the steps in order and raises `ValueError("Unknown agent type: ...")` at
the first step whose `agent` is not in the registry; on success every step
contributes one constructed agent, keyed by its id. -/
def buildAgents : List Value → Except String (List String)
  | [] => .ok []
  | step :: rest =>
    if AGENT_REGISTRY.contains (stepAgent step) then
      match buildAgents rest with
      | .ok ids => .ok (stepId step :: ids)
      | .error e => .error e
    else .error ("Unknown agent type: " ++ stepAgent step)

/-- `build_workflow` (lines 63–96): validate the configuration (raising
`ValueError("Invalid workflow configuration: ...")` when invalid), then
construct one agent per declared step. -/
def buildWorkflow (wc : Value) : Except String (List String) :=
  if validateWorkflow wc then buildAgents (workflowStepsOf wc)
  else .error "Invalid workflow configuration"

/-! ## Configuration loader (`src/utils/config_loader.py`) -/

/-- `os.getenv(key, default)` stored as a string value. -/
def envStrD (env : String → Option String) (key dflt : String) : Value :=
  .str ((env key).getD dflt)

/-- `os.getenv(key)` stored as a string value or `None`. -/
def envStrOpt (env : String → Option String) (key : String) : Value :=
  match env key with
  | some s => .str s
  | none => .null

/-- `ConfigLoader._load_env` (config_loader.py lines 40–68): when the
`.env` file is missing the method returns early and `self.env_vars` stays
the empty dictionary; otherwise the table of important variables is
populated, with `ENABLE_DRY_RUN` stored as the boolean
`os.getenv('ENABLE_DRY_RUN', 'true').lower() == 'true'`
(line 66).  `envFileExists` models `self.env_path.exists()` and `env` the
process environment after `load_dotenv`. -/
def loadEnvVars (envFileExists : Bool) (env : String → Option String) :
    List (String × Value) :=
  if envFileExists then
    [("AI_PROVIDER", envStrD env "AI_PROVIDER" "gemini"),
     ("GEMINI_API_KEY", envStrOpt env "GEMINI_API_KEY"),
     ("OPENAI_API_KEY", envStrOpt env "OPENAI_API_KEY"),
     ("CLAY_API_KEY", envStrOpt env "CLAY_API_KEY"),
     ("APOLLO_API_KEY", envStrOpt env "APOLLO_API_KEY"),
     ("CLEARBIT_API_KEY", envStrOpt env "CLEARBIT_API_KEY"),
     ("SENDGRID_ACCOUNT_SID", envStrOpt env "SENDGRID_ACCOUNT_SID"),
     ("SENDGRID_AUTH_TOKEN", envStrOpt env "SENDGRID_AUTH_TOKEN"),
     ("SENDGRID_API_KEY", envStrOpt env "SENDGRID_API_KEY"),
     ("SENDGRID_API_SECRET", envStrOpt env "SENDGRID_API_SECRET"),
     ("SENDGRID_FROM_EMAIL", envStrOpt env "SENDGRID_FROM_EMAIL"),
     ("SENDER_NAME", envStrD env "SENDER_NAME" "Analytos.ai"),
     ("GOOGLE_SHEET_ID", envStrOpt env "GOOGLE_SHEET_ID"),
     ("GOOGLE_CREDENTIALS_PATH", envStrOpt env "GOOGLE_CREDENTIALS_PATH"),
     ("ENABLE_DRY_RUN",
      .bool (pyLower ((env "ENABLE_DRY_RUN").getD "true") == "true")),
     ("LOG_LEVEL", envStrD env "LOG_LEVEL" "INFO")]
  else []

/-- `ConfigLoader.is_dry_run` (lines 175–182):
`self.env_vars.get('ENABLE_DRY_RUN', True)`. -/
def isDryRun (envVars : List (String × Value)) : Value :=
  (getKey? envVars "ENABLE_DRY_RUN").getD (.bool true)

/-! ## Dictionary lemmas -/

theorem getKey?_setKey_self (m : List (String × Value)) (k : String)
    (v : Value) : getKey? (setKey m k v) k = some v := by
  induction m with
  | nil => simp [setKey, getKey?]
  | cons p rest ih =>
    obtain ⟨a, w⟩ := p
    by_cases h : a = k
    · subst h; simp [setKey, getKey?]
    · simp [setKey, getKey?, h, ih]

theorem getKey?_setKey_ne (m : List (String × Value)) (k k' : String)
    (v : Value) (h : k ≠ k') :
    getKey? (setKey m k v) k' = getKey? m k' := by
  induction m with
  | nil => simp [setKey, getKey?, h]
  | cons p rest ih =>
    obtain ⟨a, w⟩ := p
    by_cases ha : a = k
    · subst ha; simp [setKey, getKey?, h]
    · simp only [setKey]
      rw [if_neg (by simpa using ha)]
      by_cases ha' : a = k'
      · subst ha'; simp [getKey?]
      · simp [getKey?, ha', ih]

theorem getKey?_eq_none_iff (m : List (String × Value)) (k : String) :
    getKey? m k = none ↔ k ∉ m.map Prod.fst := by
  induction m with
  | nil => simp [getKey?]
  | cons p rest ih =>
    obtain ⟨a, w⟩ := p
    by_cases h : a = k
    · subst h; simp [getKey?]
    · simp [getKey?, h, ih, Ne.symm h]

theorem mem_of_getKey?_eq_some (m : List (String × Value)) (k : String)
    (v : Value) (h : getKey? m k = some v) : (k, v) ∈ m := by
  induction m with
  | nil => simp [getKey?] at h
  | cons p rest ih =>
    obtain ⟨a, w⟩ := p
    by_cases ha : a = k
    · subst ha
      simp only [getKey?, beq_self_eq_true, if_true, Option.some.injEq] at h
      subst h; exact List.mem_cons_self _ _
    · simp only [getKey?, beq_iff_eq, if_neg ha] at h
      exact List.mem_cons_of_mem _ (ih h)

theorem hasKey_setKey_of_hasKey (m : List (String × Value)) (k i : String)
    (v : Value) (h : hasKey m i = true) : hasKey (setKey m k v) i = true := by
  by_cases hik : k = i
  · subst hik; simp [hasKey, getKey?_setKey_self]
  · simpa [hasKey, getKey?_setKey_ne m k i v hik] using h

/-! ## Execution lemmas -/

theorem foldl_runStep_calls (wc : Value) (env : String → Option String)
    (dval : Value) (agents : String → List (String × Value) → ExecOutcome)
    (steps : List Value) (acc : Trace) :
    (steps.foldl (runStep wc env dval agents) acc).calls.map Prod.fst
      = acc.calls.map Prod.fst ++ steps.map stepId := by
  induction steps generalizing acc with
  | nil => simp
  | cons st rest ih =>
    simp only [List.foldl_cons, List.map_cons]
    rw [ih]
    simp [runStep]

theorem foldl_runStep_state_notmem (wc : Value) (env : String → Option String)
    (dval : Value) (agents : String → List (String × Value) → ExecOutcome)
    (steps : List Value) (acc : Trace) (i : String)
    (h : i ∉ steps.map stepId) :
    getKey? (steps.foldl (runStep wc env dval agents) acc).state i
      = getKey? acc.state i := by
  induction steps generalizing acc with
  | nil => rfl
  | cons st rest ih =>
    simp only [List.map_cons, List.mem_cons] at h
    push_neg at h
    simp only [List.foldl_cons]
    rw [ih _ h.2]
    simp [runStep, getKey?_setKey_ne _ _ _ _ (fun he => h.1 he.symm)]

theorem hasKey_foldl_runStep_mono (wc : Value) (env : String → Option String)
    (dval : Value) (agents : String → List (String × Value) → ExecOutcome)
    (steps : List Value) (acc : Trace) (i : String)
    (h : hasKey acc.state i = true) :
    hasKey (steps.foldl (runStep wc env dval agents) acc).state i = true := by
  induction steps generalizing acc with
  | nil => exact h
  | cons st rest ih =>
    simp only [List.foldl_cons]
    exact ih _ (by simpa [runStep] using hasKey_setKey_of_hasKey _ _ _ _ h)

theorem hasKey_foldl_runStep_of_mem (wc : Value) (env : String → Option String)
    (dval : Value) (agents : String → List (String × Value) → ExecOutcome)
    (steps : List Value) (acc : Trace) (st : Value) (h : st ∈ steps) :
    hasKey (steps.foldl (runStep wc env dval agents) acc).state (stepId st)
      = true := by
  induction steps generalizing acc with
  | nil => cases h
  | cons hd rest ih =>
    rcases List.mem_cons.mp h with rfl | hmem
    · simp only [List.foldl_cons]
      exact hasKey_foldl_runStep_mono _ _ _ _ _ _ _
        (by simp [runStep, hasKey, getKey?_setKey_self])
    · simp only [List.foldl_cons]
      exact ih _ hmem

theorem getKey?_foldl_runStep_raises (wc : Value)
    (env : String → Option String) (dval : Value)
    (agents : String → List (String × Value) → ExecOutcome)
    (steps : List Value) (acc : Trace) (st : Value) (msg : String)
    (hmem : st ∈ steps) (hnodup : (steps.map stepId).Nodup)
    (hraise : ∀ inp, agents (stepId st) inp = .raises msg) :
    getKey? (steps.foldl (runStep wc env dval agents) acc).state (stepId st)
      = some (Value.obj [("error", .str msg), ("status", .str "failed")]) := by
  induction steps generalizing acc with
  | nil => cases hmem
  | cons hd rest ih =>
    simp only [List.map_cons, List.nodup_cons] at hnodup
    rcases List.mem_cons.mp hmem with rfl | hmem'
    · rw [List.foldl_cons,
        foldl_runStep_state_notmem _ _ _ _ _ _ _ hnodup.1]
      simp [runStep, hraise, getKey?_setKey_self]
    · rw [List.foldl_cons]
      exact ih _ hmem' hnodup.2

/-- Invariant: every value stored in the workflow state is a mapping. -/
def stateAllObj (m : List (String × Value)) : Prop :=
  ∀ i v, getKey? m i = some v → ∃ kvs, v = Value.obj kvs

theorem stateAllObj_setKey (m : List (String × Value)) (k : String) (v : Value)
    (hm : stateAllObj m) (hv : ∃ kvs, v = Value.obj kvs) :
    stateAllObj (setKey m k v) := by
  intro i w hw
  by_cases hik : k = i
  · subst hik
    rw [getKey?_setKey_self] at hw
    exact (Option.some.inj hw) ▸ hv
  · rw [getKey?_setKey_ne _ _ _ _ hik] at hw
    exact hm i w hw

theorem stateAllObj_runStep (wc : Value) (env : String → Option String)
    (dval : Value) (agents : String → List (String × Value) → ExecOutcome)
    (acc : Trace) (st : Value)
    (hagents : ∀ i inp v, agents i inp = .ok v →
       v.truthy = false ∨ ∃ kvs, v = Value.obj kvs)
    (hacc : stateAllObj acc.state) :
    stateAllObj (runStep wc env dval agents acc st).state := by
  simp only [runStep]
  apply stateAllObj_setKey _ _ _ hacc
  rcases hout : agents (stepId st)
      (prepareAgentInputs wc acc.state env dval (stepInputs st)).1 with v | msg
  · by_cases ht : v.truthy = true
    · rcases hagents _ _ _ hout with hf | hobj
      · rw [ht] at hf; cases hf
      · simp [ht]; exact hobj
    · simp [Bool.not_eq_true] at ht
      exact ⟨[], by simp [ht]⟩
  · exact ⟨_, rfl⟩

theorem stateAllObj_foldl_runStep (wc : Value) (env : String → Option String)
    (dval : Value) (agents : String → List (String × Value) → ExecOutcome)
    (steps : List Value) (acc : Trace)
    (hagents : ∀ i inp v, agents i inp = .ok v →
       v.truthy = false ∨ ∃ kvs, v = Value.obj kvs)
    (hacc : stateAllObj acc.state) :
    stateAllObj (steps.foldl (runStep wc env dval agents) acc).state := by
  induction steps generalizing acc with
  | nil => exact hacc
  | cons st rest ih =>
    exact ih _ (stateAllObj_runStep _ _ _ _ _ _ hagents hacc)

/-! ## Resolver lemmas -/

/-- The effect of the special segment `output` (lines 215–219): descend
into the `data` key when the stored result is a dict carrying one,
otherwise keep the stored result unchanged. -/
def successPayload (r : Value) : Value :=
  match r with
  | .obj kvs =>
    match getKey? kvs "data" with
    | some d => d
    | none => r
  | _ => r

theorem walkStatePath_output (r : Value) (rest : List String) :
    walkStatePath r ("output" :: rest) = walkStatePath (successPayload r) rest := by
  cases r with
  | obj kvs =>
    simp only [walkStatePath, successPayload]
    cases h : getKey? kvs "data" <;> simp [h]
  | null => simp [walkStatePath, successPayload]
  | bool b => simp [walkStatePath, successPayload]
  | int n => simp [walkStatePath, successPayload]
  | str s => simp [walkStatePath, successPayload]
  | list xs => simp [walkStatePath, successPayload]

theorem walkStatePath_single_obj (kvs : List (String × Value)) (p : String)
    (hp : p ≠ "output") :
    walkStatePath (Value.obj kvs) [p] = getKey? kvs p := by
  simp only [walkStatePath, beq_iff_eq, if_neg hp]
  cases h : getKey? kvs p <;> simp [h, walkStatePath]

/-! ## Binding-fold lemmas (`_prepare_agent_inputs` loop) -/

/-- The accumulation of `resolved_inputs` over the bindings, projected to
the dictionary component. -/
def resolveFold (wc : Value) (state : List (String × Value))
    (env : String → Option String) (inputs : List (String × Value))
    (acc : List (String × Value)) : List (String × Value) :=
  inputs.foldl (fun a kv => setKey a kv.1 (resolveValue wc state env kv.2).1) acc

theorem resolveFold_cons (wc : Value) (state : List (String × Value))
    (env : String → Option String) (kv : String × Value)
    (rest : List (String × Value)) (acc : List (String × Value)) :
    resolveFold wc state env (kv :: rest) acc
      = resolveFold wc state env rest
          (setKey acc kv.1 (resolveValue wc state env kv.2).1) := rfl

theorem prepareAgentInputs_fst (wc : Value) (state : List (String × Value))
    (env : String → Option String) (dval : Value)
    (inputs : List (String × Value)) :
    (prepareAgentInputs wc state env dval inputs).1
      = (if hasKey (resolveFold wc state env inputs []) "dry_run"
         then resolveFold wc state env inputs []
         else setKey (resolveFold wc state env inputs []) "dry_run" dval) := by
  have key : ∀ (acc : List (String × Value) × List String),
      (inputs.foldl
        (fun acc kv =>
          (setKey acc.1 kv.1 (resolveValue wc state env kv.2).1,
           acc.2 ++ (resolveValue wc state env kv.2).2)) acc).1
        = resolveFold wc state env inputs acc.1 := by
    induction inputs with
    | nil => intro acc; rfl
    | cons kv rest ih =>
      intro acc
      simp only [List.foldl_cons, resolveFold] at ih ⊢
      exact ih _
  by_cases h : hasKey (resolveFold wc state env inputs []) "dry_run" <;>
    simp [prepareAgentInputs, h, key ([], [])]

theorem resolveFold_notmem (wc : Value) (state : List (String × Value))
    (env : String → Option String) (inputs : List (String × Value))
    (acc : List (String × Value)) (k : String)
    (h : k ∉ inputs.map Prod.fst) :
    getKey? (resolveFold wc state env inputs acc) k = getKey? acc k := by
  induction inputs generalizing acc with
  | nil => rfl
  | cons kv rest ih =>
    simp only [List.map_cons, List.mem_cons] at h
    push_neg at h
    simp only [resolveFold, List.foldl_cons] at ih ⊢
    rw [ih _ h.2, getKey?_setKey_ne _ _ _ _ (fun he => h.1 he.symm)]

theorem resolveFold_mem (wc : Value) (state : List (String × Value))
    (env : String → Option String) (inputs : List (String × Value))
    (acc : List (String × Value)) (k : String) (v : Value)
    (hnodup : (inputs.map Prod.fst).Nodup) (hmem : (k, v) ∈ inputs) :
    getKey? (resolveFold wc state env inputs acc) k
      = some (resolveValue wc state env v).1 := by
  induction inputs generalizing acc with
  | nil => cases hmem
  | cons kv rest ih =>
    simp only [List.map_cons, List.nodup_cons] at hnodup
    rcases List.mem_cons.mp hmem with rfl | hmem'
    · rw [resolveFold_cons, resolveFold_notmem _ _ _ _ _ _ hnodup.1,
        getKey?_setKey_self]
    · rw [resolveFold_cons]
      exact ih _ hnodup.2 hmem'

theorem hasKey_resolveFold (wc : Value) (state : List (String × Value))
    (env : String → Option String) (inputs : List (String × Value))
    (hnodup : (inputs.map Prod.fst).Nodup) :
    hasKey (resolveFold wc state env inputs []) "dry_run"
      = hasKey inputs "dry_run" := by
  cases h : getKey? inputs "dry_run" with
  | none =>
    have hnot := (getKey?_eq_none_iff inputs "dry_run").mp h
    simp [hasKey, h, resolveFold_notmem _ _ _ _ _ _ hnot, getKey?]
  | some v =>
    have hmem := mem_of_getKey?_eq_some _ _ _ h
    simp [hasKey, h, resolveFold_mem _ _ _ _ _ _ _ hnodup hmem]

/-! ## Concrete runs

The three-stage example of the specification (`find → rank → notify`,
spec §8) written as a `workflow.json` configuration, with agent behaviours
producing `leads=[A,B]` and `ranked=[B,A]`. -/

/-- The `find` step of the example pipeline. -/
def findStep : Value :=
  .obj
    [("id", .str "find"),
     ("agent", .str "ProspectSearchAgent"),
     ("instructions", .str "find leads")]

/-- The `rank` step of the example pipeline. -/
def rankStep : Value :=
  .obj
    [("id", .str "rank"),
     ("agent", .str "ScoringAgent"),
     ("instructions", .str "rank leads"),
     ("inputs", .obj [("leads", .str "\x7b\x7bfind.output.leads\x7d\x7d")])]

/-- The `notify` step of the example pipeline. -/
def notifyStep : Value :=
  .obj
    [("id", .str "notify"),
     ("agent", .str "OutreachExecutorAgent"),
     ("instructions", .str "notify top lead"),
     ("inputs", .obj [("top", .str "\x7b\x7brank.output.ranked.0\x7d\x7d")])]

/-- The spec §8 example pipeline as a workflow configuration. -/
def exampleWorkflow : Value :=
  .obj
    [("workflow_name", .str "example"),
     ("steps", .list [findStep, rankStep, notifyStep])]

/-- Stage behaviours of the example: `find` produces `leads=[A,B]`, `rank`
produces `ranked=[B,A]`, `notify` succeeds with an empty summary. -/
def exampleAgents : String → List (String × Value) → ExecOutcome :=
  fun agentId _ =>
    if agentId == "find" then
      .ok (.obj [("leads", .list [.str "A", .str "B"])])
    else if agentId == "rank" then
      .ok (.obj [("ranked", .list [.str "B", .str "A"])])
    else .ok (.obj [("sent", .bool true)])

/-- An empty process environment. -/
def emptyEnv : String → Option String := fun _ => none

/-- The example run of `execute_workflow` for the spec §8 pipeline. -/
def exampleRun : Trace :=
  executeStepList exampleWorkflow emptyEnv (.bool true) exampleAgents
    (workflowStepsOf exampleWorkflow)

/-- The single step of the failing pipeline below. -/
def failStep : Value :=
  .obj
    [("id", .str "s1"),
     ("agent", .str "ScoringAgent"),
     ("instructions", .str "score")]

/-- A one-stage pipeline whose agent raises. -/
def failWorkflow : Value :=
  .obj
    [("workflow_name", .str "failing"),
     ("steps", .list [failStep])]

/-- An agent behaviour that always raises `Exception("boom")`. -/
def boomAgents : String → List (String × Value) → ExecOutcome :=
  fun _ _ => .raises "boom"

/-- The run of the one-stage pipeline with the raising agent. -/
def failRun : Trace :=
  executeStepList failWorkflow emptyEnv (.bool true) boomAgents
    (workflowStepsOf failWorkflow)

/-- A schema-valid configuration whose `steps` list is empty. -/
def emptyStepsWorkflow : Value :=
  .obj [("workflow_name", .str "empty"), ("steps", .list [])]

/-- A file-system model that always succeeds. -/
def writeOk : String → List (String × Value) → Except String Unit :=
  fun _ _ => .ok ()

/-! ## Build lemmas -/

theorem buildAgents_ok (steps : List Value) (ids : List String)
    (h : buildAgents steps = Except.ok ids) :
    ids = steps.map stepId
    ∧ (steps.all fun st => AGENT_REGISTRY.contains (stepAgent st)) = true := by
  induction steps generalizing ids with
  | nil =>
    simp only [buildAgents, Except.ok.injEq] at h
    subst h; simp
  | cons st rest ih =>
    simp only [buildAgents] at h
    by_cases hr : AGENT_REGISTRY.contains (stepAgent st)
    · rw [if_pos hr] at h
      cases hb : buildAgents rest with
      | ok ids' =>
        rw [hb] at h
        simp only [Except.ok.injEq] at h
        obtain ⟨hids, hall⟩ := ih ids' hb
        subst h
        refine ⟨by simp [hids], ?_⟩
        rw [List.all_cons, hr, hall]
        rfl
      | error e => rw [hb] at h; cases h
    · rw [if_neg hr] at h; cases h

/-! ## Claim theorems -/

/-- C1: for every pipeline definition whose `build_workflow` succeeded,
`execute_workflow` invokes each stage executor exactly once, in exactly the
declared order of the `steps` list, never skipping or reordering a stage,
regardless of whether any individual stage's `execute` succeeds, returns a
falsy result, or raises an exception — the invocation trace is always the
declared step-id list (for arbitrary agent behaviours, including raising),
which also equals the list of built agent ids. -/
theorem C1_executes_in_declared_order (wc : Value)
    (env : String → Option String) (dval : Value)
    (agents : String → List (String × Value) → ExecOutcome)
    (ts : String) (write : String → List (String × Value) → Except String Unit)
    (ids : List String) (hbuild : buildWorkflow wc = Except.ok ids) :
    (executeWorkflow wc env dval agents ts write).calls.map Prod.fst
      = (workflowStepsOf wc).map stepId
    ∧ (executeWorkflow wc env dval agents ts write).calls.map Prod.fst
      = ids := by
  have hv : validateWorkflow wc = true := by
    by_contra hv
    rw [buildWorkflow, if_neg hv] at hbuild
    cases hbuild
  have hb : buildAgents (workflowStepsOf wc) = Except.ok ids := by
    rw [buildWorkflow, if_pos hv] at hbuild
    exact hbuild
  have hids := (buildAgents_ok _ _ hb).1
  have hcalls : (executeWorkflow wc env dval agents ts write).calls
      = (executeStepList wc env dval agents (workflowStepsOf wc)).calls := by
    simp only [executeWorkflow]
    cases hw : write (saveResultsPath ts)
        (executeStepList wc env dval agents (workflowStepsOf wc)).state <;>
      simp [hw]
  have hmain : (executeWorkflow wc env dval agents ts write).calls.map Prod.fst
      = (workflowStepsOf wc).map stepId := by
    rw [hcalls]
    simpa using foldl_runStep_calls wc env dval agents (workflowStepsOf wc)
      { calls := [], state := [] }
  exact ⟨hmain, by rw [hmain, hids]⟩

/-- Witness for C1 at the concrete three-stage example pipeline. -/
theorem C1_witness :
    (executeWorkflow exampleWorkflow emptyEnv (.bool true) exampleAgents
        "20260101_000000" writeOk).calls.map Prod.fst
      = ["find", "rank", "notify"] := by
  rw [(C1_executes_in_declared_order exampleWorkflow emptyEnv (.bool true)
    exampleAgents "20260101_000000" writeOk ["find", "rank", "notify"]
    rfl).1]
  rfl

/-- C5: every run that enters `execute_workflow` runs all stages and then
attempts exactly one snapshot write of the full workflow state to the
timestamped file; every declared stage id has an entry in the snapshot
state, and the run's result is an error exactly when the snapshot write
fails (otherwise it is the final state). -/
theorem C5_snapshot_and_persistence (wc : Value)
    (env : String → Option String) (dval : Value)
    (agents : String → List (String × Value) → ExecOutcome)
    (ts : String)
    (write : String → List (String × Value) → Except String Unit) :
    (executeWorkflow wc env dval agents ts write).writes
      = [(saveResultsPath ts,
          (executeStepList wc env dval agents (workflowStepsOf wc)).state)]
    ∧ ((workflowStepsOf wc).all fun st =>
        hasKey (executeStepList wc env dval agents (workflowStepsOf wc)).state
          (stepId st)) = true
    ∧ (∀ e, (executeWorkflow wc env dval agents ts write).result
            = Except.error e
        ↔ write (saveResultsPath ts)
            (executeStepList wc env dval agents (workflowStepsOf wc)).state
          = Except.error e)
    ∧ (write (saveResultsPath ts)
          (executeStepList wc env dval agents (workflowStepsOf wc)).state
        = Except.ok () →
       (executeWorkflow wc env dval agents ts write).result
         = Except.ok
             (executeStepList wc env dval agents (workflowStepsOf wc)).state) := by
  refine ⟨?_, ?_, ?_, ?_⟩
  · simp only [executeWorkflow]
    cases hw : write (saveResultsPath ts)
        (executeStepList wc env dval agents (workflowStepsOf wc)).state <;>
      simp [hw]
  · rw [List.all_eq_true]
    intro st hmem
    exact hasKey_foldl_runStep_of_mem wc env dval agents _ _ st hmem
  · intro e
    simp only [executeWorkflow]
    cases hw : write (saveResultsPath ts)
        (executeStepList wc env dval agents (workflowStepsOf wc)).state <;>
      simp [hw]
  · intro hw
    simp [executeWorkflow, hw]

/-- Witness for C5 at the concrete example pipeline. -/
theorem C5_witness :
    (executeWorkflow exampleWorkflow emptyEnv (.bool true) exampleAgents
        "20260101_000000" writeOk).result
      = Except.ok
          (executeStepList exampleWorkflow emptyEnv (.bool true) exampleAgents
            (workflowStepsOf exampleWorkflow)).state :=
  (C5_snapshot_and_persistence exampleWorkflow emptyEnv (.bool true)
    exampleAgents "20260101_000000" writeOk).2.2.2 rfl

/-- C4, counterexample: in a concrete run whose only stage raises
`Exception("boom")`, the record written into the workflow state (and hence
the snapshot) is `{"error": "boom", "status": "failed"}` — it carries
neither a `timestamp`, nor an `errorKind`, nor a `stageId` field, so the
claimed four-field `Failure` record is not what the orchestrator stores. -/
theorem C4_counterexample :
    getKey? failRun.state "s1"
      = some (Value.obj
          [("error", Value.str "boom"), ("status", Value.str "failed")])
    ∧ hasKey [("error", Value.str "boom"), ("status", Value.str "failed")]
        "timestamp" = false
    ∧ hasKey [("error", Value.str "boom"), ("status", Value.str "failed")]
        "errorKind" = false
    ∧ hasKey [("error", Value.str "boom"), ("status", Value.str "failed")]
        "stageId" = false :=
  ⟨rfl, rfl, rfl, rfl⟩

/-- C4, amended: for every stage whose `execute` raises an exception, the
orchestrator writes into the workflow state, under that stage's id, the
two-field record `{"error": str(e), "status": "failed"}` (the stage id is
the state key, not a field, and no timestamp or error kind is recorded);
with unique step ids that record is carried verbatim into the single
snapshot written at the end of the run. -/
theorem C4_raise_writes_error_record (wc : Value)
    (env : String → Option String) (dval : Value)
    (agents : String → List (String × Value) → ExecOutcome)
    (ts : String)
    (write : String → List (String × Value) → Except String Unit)
    (st : Value) (msg : String)
    (hmem : st ∈ workflowStepsOf wc)
    (hnodup : ((workflowStepsOf wc).map stepId).Nodup)
    (hraise : ∀ inp, agents (stepId st) inp = ExecOutcome.raises msg) :
    getKey? (executeStepList wc env dval agents (workflowStepsOf wc)).state
        (stepId st)
      = some (Value.obj
          [("error", .str msg), ("status", .str "failed")])
    ∧ (executeWorkflow wc env dval agents ts write).writes
      = [(saveResultsPath ts,
          (executeStepList wc env dval agents (workflowStepsOf wc)).state)] := by
  constructor
  · exact getKey?_foldl_runStep_raises wc env dval agents _ _ st msg hmem
      hnodup hraise
  · simp only [executeWorkflow]
    cases hw : write (saveResultsPath ts)
        (executeStepList wc env dval agents (workflowStepsOf wc)).state <;>
      simp [hw]

/-- Witness for C4 at the concrete one-stage raising pipeline. -/
theorem C4_witness :
    getKey? (executeStepList failWorkflow emptyEnv (.bool true) boomAgents
        (workflowStepsOf failWorkflow)).state (stepId failStep)
      = some (Value.obj
          [("error", .str "boom"), ("status", .str "failed")])
    ∧ (executeWorkflow failWorkflow emptyEnv (.bool true) boomAgents
        "20260101_000000" writeOk).writes
      = [(saveResultsPath "20260101_000000",
          (executeStepList failWorkflow emptyEnv (.bool true) boomAgents
            (workflowStepsOf failWorkflow)).state)] :=
  C4_raise_writes_error_record failWorkflow emptyEnv (.bool true) boomAgents
    "20260101_000000" writeOk failStep "boom"
    (List.mem_cons_self _ _) (List.nodup_singleton _) (fun _ => rfl)

/-- C6, counterexample: the schema does not require `steps` to be
non-empty — a definition with an empty stage list passes validation and
`build_workflow` accepts it (building zero agents), contradicting the
claimed non-empty-stages requirement. -/
theorem C6_counterexample :
    buildWorkflow emptyStepsWorkflow = Except.ok []
    ∧ workflowStepsOf emptyStepsWorkflow = [] :=
  ⟨rfl, rfl⟩

/-- C6, amended: `build_workflow` accepts a pipeline definition only if it
has a `workflow_name`, a (possibly empty) `steps` array, and every stage
descriptor is an object carrying `id`, `instructions` and an `agent` known
to the registry, with `inputs` (when present) an object; the first
structural violation raises before any stage executes and a successful
build constructs one agent per declared step. -/
theorem C6_accepts_only_valid (wc : Value) (ids : List String)
    (h : buildWorkflow wc = Except.ok ids) :
    validateWorkflow wc = true
    ∧ hasKey (objFields wc) "workflow_name" = true
    ∧ hasKey (objFields wc) "steps" = true
    ∧ ((workflowStepsOf wc).all validStepSchema) = true
    ∧ ((workflowStepsOf wc).all fun st =>
        AGENT_REGISTRY.contains (stepAgent st)) = true
    ∧ ids = (workflowStepsOf wc).map stepId := by
  have hv : validateWorkflow wc = true := by
    by_contra hv
    rw [buildWorkflow, if_neg hv] at h
    cases h
  have hb : buildAgents (workflowStepsOf wc) = Except.ok ids := by
    rw [buildWorkflow, if_pos hv] at h
    exact h
  obtain ⟨hids, hreg⟩ := buildAgents_ok _ _ hb
  cases wc with
  | obj kvs =>
    simp only [validateWorkflow, Bool.and_eq_true, and_assoc] at hv
    obtain ⟨h1, h2, _, _, _, h6⟩ := hv
    refine ⟨?_, h1, h2, ?_, hreg, hids⟩
    · rw [validateWorkflow]
      simp [h1, h2, *]
    · cases hs : getKey? kvs "steps" with
      | none => rw [hasKey, hs] at h2; cases h2
      | some sv =>
        cases sv with
        | list xs =>
          rw [hs] at h6
          have hws : workflowStepsOf (Value.obj kvs) = xs := by
            simp [workflowStepsOf, objFields, hs]
          rw [hws]
          exact h6
        | null => rw [hs] at h6; cases h6
        | bool b => rw [hs] at h6; cases h6
        | int n => rw [hs] at h6; cases h6
        | str s => rw [hs] at h6; cases h6
        | obj kvs2 => rw [hs] at h6; cases h6
  | null => cases hv
  | bool b => cases hv
  | int n => cases hv
  | str s => cases hv
  | list xs => cases hv

/-- Witness for C6 at the concrete three-stage example pipeline. -/
theorem C6_witness :
    validateWorkflow exampleWorkflow = true
    ∧ hasKey (objFields exampleWorkflow) "workflow_name" = true
    ∧ hasKey (objFields exampleWorkflow) "steps" = true
    ∧ ((workflowStepsOf exampleWorkflow).all validStepSchema) = true
    ∧ ((workflowStepsOf exampleWorkflow).all fun st =>
        AGENT_REGISTRY.contains (stepAgent st)) = true
    ∧ ["find", "rank", "notify"]
        = (workflowStepsOf exampleWorkflow).map stepId :=
  C6_accepts_only_valid exampleWorkflow ["find", "rank", "notify"] rfl

/-- Reduction of the resolver on a placeholder whose body splits into a
stage id, the literal `output`, and one field segment. -/
theorem resolveValue_stage_path (wc : Value) (state : List (String × Value))
    (env : String → Option String) (e s1 x : String)
    (hw1 : pyStartsWith e "\x7b\x7b" = true)
    (hw2 : pyEndsWith e "\x7d\x7d" = true)
    (hsplit : pySplitDot (placeholderBody e) = [s1, "output", x])
    (hs1 : s1 ≠ "config") :
    resolveValue wc state env (.str e)
      = (match getKey? state s1 with
         | some data =>
           (match walkStatePath data ["output", x] with
            | some d => (d, [])
            | none =>
              (Value.null,
               ["Could not resolve reference: " ++ placeholderBody e]))
         | none =>
           (Value.null,
            ["Step \x27" ++ s1 ++ "\x27 output not found in state"])) := by
  have hcfg : (s1 == "config") = false := by simp [hs1]
  simp only [resolveValue, hw1, hw2, Bool.and_self, if_true, hsplit, hcfg,
    Bool.false_eq_true, if_false]

/-- C2: a binding `\x7b\x7bs1.output.x\x7d\x7d` resolves to the value at
key `x` of stage `s1`'s stored result (after descending into its `data`
payload when one is present) once `s1` has executed and `x` is present;
it resolves to null with a logged diagnostic when `s1` has no entry in
state yet, and to null with a logged diagnostic when `x` is absent from
the stored result (as after a failure); resolution is a total function and
never raises. -/
theorem C2_stage_output_binding (wc : Value) (state : List (String × Value))
    (env : String → Option String) (e s1 x : String)
    (hw1 : pyStartsWith e "\x7b\x7b" = true)
    (hw2 : pyEndsWith e "\x7d\x7d" = true)
    (hsplit : pySplitDot (placeholderBody e) = [s1, "output", x])
    (hs1 : s1 ≠ "config") (hx : x ≠ "output") :
    (∀ r kvs v, getKey? state s1 = some r →
       successPayload r = Value.obj kvs → getKey? kvs x = some v →
       resolveValue wc state env (.str e) = (v, []))
    ∧ (getKey? state s1 = none →
       resolveValue wc state env (.str e)
         = (.null, ["Step \x27" ++ s1 ++ "\x27 output not found in state"]))
    ∧ (∀ r kvs, getKey? state s1 = some r →
       successPayload r = Value.obj kvs → getKey? kvs x = none →
       resolveValue wc state env (.str e)
         = (.null, ["Could not resolve reference: " ++ placeholderBody e])) := by
  have hred := resolveValue_stage_path wc state env e s1 x hw1 hw2 hsplit hs1
  refine ⟨?_, ?_, ?_⟩
  · intro r kvs v hr hp hkx
    rw [hred, hr]
    show (match walkStatePath r ["output", x] with
          | some d => (d, [])
          | none =>
            (Value.null,
             ["Could not resolve reference: " ++ placeholderBody e]))
        = (v, [])
    rw [walkStatePath_output, hp, walkStatePath_single_obj _ _ hx, hkx]
  · intro hnone
    rw [hred, hnone]
  · intro r kvs hr hp hkx
    rw [hred, hr]
    show (match walkStatePath r ["output", x] with
          | some d => (d, [])
          | none =>
            (Value.null,
             ["Could not resolve reference: " ++ placeholderBody e]))
        = (Value.null, ["Could not resolve reference: " ++ placeholderBody e])
    rw [walkStatePath_output, hp, walkStatePath_single_obj _ _ hx, hkx]

/-- Witness for C2: a resolved stage-output binding at concrete values. -/
theorem C2_witness :
    resolveValue (.obj []) [("s1", .obj [("x", .int 7)])] emptyEnv
      (.str "\x7b\x7bs1.output.x\x7d\x7d") = (.int 7, []) :=
  (C2_stage_output_binding (.obj []) [("s1", .obj [("x", .int 7)])] emptyEnv
      "\x7b\x7bs1.output.x\x7d\x7d" "s1" "x" rfl rfl rfl (by decide)
      (by decide)).1
    (.obj [("x", .int 7)]) [("x", .int 7)] (.int 7) rfl rfl rfl

/-- Reduction of the resolver on a placeholder whose body is a single
token: it is looked up in the process environment. -/
theorem resolveValue_env_single (wc : Value) (state : List (String × Value))
    (env : String → Option String) (e n : String)
    (hw1 : pyStartsWith e "\x7b\x7b" = true)
    (hw2 : pyEndsWith e "\x7d\x7d" = true)
    (hsplit : pySplitDot (placeholderBody e) = [n]) :
    resolveValue wc state env (.str e)
      = (match env (placeholderBody e) with
         | some ev => (coerceEnvString ev, [])
         | none =>
           (Value.null,
            ["Could not resolve reference: " ++ placeholderBody e])) := by
  simp only [resolveValue, hw1, hw2, Bool.and_self, if_true, hsplit]

/-- C7: a single-token placeholder is an environment-variable reference:
when the variable is present with value `true`/`false` in any letter case
the binding resolves to the corresponding boolean, when present with any
other value it resolves to that raw string, and when absent it resolves to
null with a logged diagnostic. -/
theorem C7_env_variable_binding (wc : Value) (state : List (String × Value))
    (env : String → Option String) (e n : String)
    (hw1 : pyStartsWith e "\x7b\x7b" = true)
    (hw2 : pyEndsWith e "\x7d\x7d" = true)
    (hsplit : pySplitDot (placeholderBody e) = [n]) :
    (∀ ev, env (placeholderBody e) = some ev → pyLower ev = "true" →
       resolveValue wc state env (.str e) = (.bool true, []))
    ∧ (∀ ev, env (placeholderBody e) = some ev → pyLower ev = "false" →
       resolveValue wc state env (.str e) = (.bool false, []))
    ∧ (∀ ev, env (placeholderBody e) = some ev → pyLower ev ≠ "true" →
       pyLower ev ≠ "false" →
       resolveValue wc state env (.str e) = (.str ev, []))
    ∧ (env (placeholderBody e) = none →
       resolveValue wc state env (.str e)
         = (.null, ["Could not resolve reference: " ++ placeholderBody e])) := by
  have hred := resolveValue_env_single wc state env e n hw1 hw2 hsplit
  refine ⟨?_, ?_, ?_, ?_⟩
  · intro ev henv hl
    rw [hred, henv]
    simp [coerceEnvString, hl]
  · intro ev henv hl
    rw [hred, henv]
    simp [coerceEnvString, hl]
  · intro ev henv hl1 hl2
    rw [hred, henv]
    simp [coerceEnvString, hl1, hl2]
  · intro henv
    rw [hred, henv]

/-- Witness for C7: a concrete environment lookup coerced to a boolean. -/
theorem C7_witness :
    resolveValue (.obj []) []
      (fun k => if k == "ENABLE_DRY_RUN" then some "TrUe" else none)
      (.str "\x7b\x7bENABLE_DRY_RUN\x7d\x7d") = (.bool true, []) :=
  (C7_env_variable_binding (.obj []) []
      (fun k => if k == "ENABLE_DRY_RUN" then some "TrUe" else none)
      "\x7b\x7bENABLE_DRY_RUN\x7d\x7d" "ENABLE_DRY_RUN" rfl rfl rfl).1
    "TrUe" rfl rfl

/-- C3, counterexample: in the spec §8 example run, `notify` is invoked
with `top = null`, not with the list element `B` — the resolver treats the
segment `0` of `\x7b\x7brank.output.ranked.0\x7d\x7d` as a dict key and the
current value is a list, so the walk aborts to null. -/
theorem C3_counterexample :
    (exampleRun.calls.getLast?).map (fun c => getKey? c.2 "top")
      = some (some Value.null)
    ∧ some (some Value.null) ≠ some (some (Value.str "B")) :=
  ⟨rfl, by simp⟩

/-- C3, amended: in the spec §8 example run, `find` and `rank` resolve as
described (`rank` is invoked with `leads = [A, B]`), but
`\x7b\x7brank.output.ranked.0\x7d\x7d` resolves to null with a logged
diagnostic — the resolver does not index into lists — so `notify` is
invoked with `top = null` (and the injected `dry_run`). -/
theorem C3_notify_invoked_with_null :
    exampleRun.calls
      = [("find", [("dry_run", Value.bool true)]),
         ("rank",
          [("leads", Value.list [Value.str "A", Value.str "B"]),
           ("dry_run", Value.bool true)]),
         ("notify", [("top", Value.null), ("dry_run", Value.bool true)])]
    ∧ resolveValue exampleWorkflow
        [("find",
          Value.obj [("leads", Value.list [Value.str "A", Value.str "B"])]),
         ("rank",
          Value.obj [("ranked", Value.list [Value.str "B", Value.str "A"])])]
        emptyEnv (.str "\x7b\x7brank.output.ranked.0\x7d\x7d")
      = (Value.null, ["Could not resolve reference: rank.output.ranked.0"]) :=
  ⟨rfl, rfl⟩

/-- Helper: when the key `dry_run` is not among a step's bindings, the
prepared inputs carry the injected global dry-run value. -/
theorem prepare_dry_run_absent (wc : Value) (state : List (String × Value))
    (env : String → Option String) (dval : Value)
    (inputs : List (String × Value))
    (h : hasKey inputs "dry_run" = false) :
    getKey? (prepareAgentInputs wc state env dval inputs).1 "dry_run"
      = some dval := by
  have hnone : getKey? inputs "dry_run" = none := by
    cases hq : getKey? inputs "dry_run" with
    | none => rfl
    | some v => rw [hasKey, hq] at h; cases h
  have hnot : "dry_run" ∉ inputs.map Prod.fst :=
    (getKey?_eq_none_iff _ _).mp hnone
  have hhk : hasKey (resolveFold wc state env inputs []) "dry_run" = false := by
    rw [hasKey, resolveFold_notmem _ _ _ _ _ _ hnot]
    rfl
  rw [prepareAgentInputs_fst]
  simp [hhk, getKey?_setKey_self]

/-- Helper: association-list lookup finds a member pair when keys are
unique. -/
theorem getKey?_eq_some_of_mem_nodup (m : List (String × Value)) (k : String)
    (v : Value) (hnodup : (m.map Prod.fst).Nodup) (hmem : (k, v) ∈ m) :
    getKey? m k = some v := by
  induction m with
  | nil => cases hmem
  | cons p rest ih =>
    simp only [List.map_cons, List.nodup_cons] at hnodup
    rcases List.mem_cons.mp hmem with rfl | hmem'
    · simp [getKey?]
    · obtain ⟨a, w⟩ := p
      have hk : a ≠ k := by
        intro he
        exact hnodup.1 (he ▸ (List.mem_map.mpr ⟨(k, v), hmem', rfl⟩))
      simp only [getKey?, beq_iff_eq, if_neg hk]
      exact ih hnodup.2 hmem'

/-- C8: after all of a stage's declared bindings are resolved, the key
`dry_run` is injected with the global dry-run value exactly when it was
not among the bindings; an explicitly supplied `dry_run` binding is left
unchanged (it maps to its own resolved value, even when that value is
null). -/
theorem C8_dry_run_injection (wc : Value) (state : List (String × Value))
    (env : String → Option String) (dval : Value)
    (inputs : List (String × Value))
    (hnodup : (inputs.map Prod.fst).Nodup) :
    (hasKey inputs "dry_run" = false →
       getKey? (prepareAgentInputs wc state env dval inputs).1 "dry_run"
         = some dval)
    ∧ (∀ v, ("dry_run", v) ∈ inputs →
       getKey? (prepareAgentInputs wc state env dval inputs).1 "dry_run"
         = some (resolveValue wc state env v).1) := by
  constructor
  · exact prepare_dry_run_absent wc state env dval inputs
  · intro v hmem
    have hk : getKey? inputs "dry_run" = some v :=
      getKey?_eq_some_of_mem_nodup _ _ _ hnodup hmem
    have hhk : hasKey (resolveFold wc state env inputs []) "dry_run"
        = true := by
      rw [hasKey_resolveFold _ _ _ _ hnodup, hasKey, hk]
      rfl
    rw [prepareAgentInputs_fst]
    simp only [hhk, if_true]
    exact resolveFold_mem _ _ _ _ _ _ _ hnodup hmem

/-- Witness for C8: with no `dry_run` binding the configured value is
injected. -/
theorem C8_witness :
    getKey? (prepareAgentInputs (.obj []) [] emptyEnv (Value.bool false)
        [("a", Value.int 1)]).1 "dry_run" = some (Value.bool false) :=
  (C8_dry_run_injection (.obj []) [] emptyEnv (Value.bool false)
      [("a", Value.int 1)] (by decide)).1 rfl

/-- C9: after the run, the workflow state maps every declared stage id to
a mapping and never to null — a stage whose `execute` returned a falsy
value is recorded as the empty mapping, and a stage whose `execute` raised
is recorded as the `error`/`status` mapping; the first part assumes the
`Dict[str, Any]` contract of `BaseAgent.execute` (a normal return is a
mapping, or falsy). -/
theorem C9_state_entries_are_mappings (wc : Value)
    (env : String → Option String) (dval : Value)
    (agents : String → List (String × Value) → ExecOutcome)
    (hagents : ∀ i inp v, agents i inp = ExecOutcome.ok v →
       v.truthy = false ∨ ∃ kvs, v = Value.obj kvs) :
    (∀ st, st ∈ workflowStepsOf wc →
       ∃ kvs,
         getKey?
             (executeStepList wc env dval agents (workflowStepsOf wc)).state
             (stepId st)
           = some (Value.obj kvs))
    ∧ (∀ acc st r,
        agents (stepId st)
            (prepareAgentInputs wc acc.state env dval (stepInputs st)).1
          = ExecOutcome.ok r →
        r.truthy = false →
        getKey? (runStep wc env dval agents acc st).state (stepId st)
          = some (Value.obj []))
    ∧ (∀ acc st msg,
        agents (stepId st)
            (prepareAgentInputs wc acc.state env dval (stepInputs st)).1
          = ExecOutcome.raises msg →
        getKey? (runStep wc env dval agents acc st).state (stepId st)
          = some (Value.obj
              [("error", Value.str msg), ("status", Value.str "failed")])) := by
  refine ⟨?_, ?_, ?_⟩
  · intro st hmem
    have hk := hasKey_foldl_runStep_of_mem wc env dval agents
      (workflowStepsOf wc) { calls := [], state := [] } st hmem
    obtain ⟨v, hv⟩ := Option.isSome_iff_exists.mp hk
    have hobj := stateAllObj_foldl_runStep wc env dval agents
      (workflowStepsOf wc) { calls := [], state := [] } hagents
      (by intro i w hw; simp [getKey?] at hw)
    obtain ⟨kvs, rfl⟩ := hobj _ _ hv
    exact ⟨kvs, hv⟩
  · intro acc st r hok ht
    simp [runStep, hok, ht, getKey?_setKey_self]
  · intro acc st msg hraises
    simp [runStep, hraises, getKey?_setKey_self]

/-- Witness for C9 at the example pipeline and the `find` stage. -/
theorem C9_witness :
    ∃ kvs,
      getKey? (executeStepList exampleWorkflow emptyEnv (.bool true)
          exampleAgents (workflowStepsOf exampleWorkflow)).state
          (stepId findStep)
        = some (Value.obj kvs) :=
  (C9_state_entries_are_mappings exampleWorkflow emptyEnv (.bool true)
      exampleAgents
      (by
        intro i inp v h
        simp only [exampleAgents] at h
        split at h
        · simp only [ExecOutcome.ok.injEq] at h
          exact Or.inr ⟨_, h.symm⟩
        · split at h <;>
            (simp only [ExecOutcome.ok.injEq] at h
             exact Or.inr ⟨_, h.symm⟩))).1
    findStep (List.mem_cons_self _ _)

/-- Helper: the stored `ENABLE_DRY_RUN` entry of a populated environment
table. -/
theorem getKey?_loadEnvVars_dryRun (env : String → Option String) :
    getKey? (loadEnvVars true env) "ENABLE_DRY_RUN"
      = some (.bool (pyLower ((env "ENABLE_DRY_RUN").getD "true") == "true")) :=
  rfl

/-- C10: when the `.env` file is missing the environment table stays
empty and `is_dry_run()` falls back to `True`; when `ENABLE_DRY_RUN` is
unset the stored default is `True`; `is_dry_run()` is `False` only when
the table was populated and the variable's value is not `true`
case-insensitively; consequently a stage whose bindings omit `dry_run` is
invoked with `dry_run = True` in those default situations. -/
theorem C10_dry_run_defaults (env : String → Option String) :
    isDryRun (loadEnvVars false env) = Value.bool true
    ∧ (env "ENABLE_DRY_RUN" = none →
       isDryRun (loadEnvVars true env) = Value.bool true)
    ∧ (∀ fe : Bool, isDryRun (loadEnvVars fe env) = Value.bool false →
       fe = true ∧ ∃ v, env "ENABLE_DRY_RUN" = some v ∧ pyLower v ≠ "true")
    ∧ (∀ (fe : Bool) (wc : Value) (state inputs : List (String × Value)),
       hasKey inputs "dry_run" = false →
       env "ENABLE_DRY_RUN" = none →
       getKey? (prepareAgentInputs wc state env
           (isDryRun (loadEnvVars fe env)) inputs).1 "dry_run"
         = some (Value.bool true)) := by
  have hfalse : isDryRun (loadEnvVars false env) = Value.bool true := rfl
  have htrue : env "ENABLE_DRY_RUN" = none →
      isDryRun (loadEnvVars true env) = Value.bool true := by
    intro henv
    rw [isDryRun, getKey?_loadEnvVars_dryRun, henv]
    rfl
  refine ⟨hfalse, htrue, ?_, ?_⟩
  · intro fe h
    cases fe with
    | false => rw [hfalse] at h; simp at h
    | true =>
      rw [isDryRun, getKey?_loadEnvVars_dryRun] at h
      simp only [Option.getD_some, Value.bool.injEq] at h
      cases hv : env "ENABLE_DRY_RUN" with
      | none =>
        rw [hv] at h
        exact absurd h (by decide)
      | some v =>
        rw [hv] at h
        refine ⟨rfl, v, rfl, ?_⟩
        simpa using h
  · intro fe wc state inputs habs henv
    have hd : isDryRun (loadEnvVars fe env) = Value.bool true := by
      cases fe with
      | false => exact hfalse
      | true => exact htrue henv
    rw [hd]
    exact prepare_dry_run_absent wc state env (Value.bool true) inputs habs

/-- Witness for C10: with a missing `.env` file, a stage without a
`dry_run` binding is invoked with `dry_run = True`. -/
theorem C10_witness :
    getKey? (prepareAgentInputs (.obj []) [] emptyEnv
        (isDryRun (loadEnvVars false emptyEnv)) [("a", Value.int 1)]).1
        "dry_run" = some (Value.bool true) :=
  (C10_dry_run_defaults emptyEnv).2.2.2 false (.obj []) [] [("a", Value.int 1)]
    rfl rfl

end LeadGen
